import Mathlib

/-!
Verification of the curve-fever game core (crates `curve_fever_common` and
`curve_fever_server`) against its natural-language specification.

The Rust code is shallowly embedded as follows:
* `f64` values (positions, headings, counters expressed as floats) become `ℝ`;
  `f64::sin`/`cos`/`to_radians` become `Real.sin`/`Real.cos` and
  multiplication by `π / 180`.  `value as usize` on a non-negative float is
  `Nat.floor`; on a negative float Rust saturates to `0`, which `Nat.floor`
  also yields, so the cast is modelled uniformly by `Nat.floor`.
  `f64::is_sign_negative` is modelled as `< 0` (the `-0.0` corner is not
  produced by any of the arithmetic analysed here).
* `Uuid` becomes `ℕ`, with `0` playing the role of `Uuid::default()`, the
  grid's "unclaimed" sentinel.
* `HashMap<Uuid, Arc<Mutex<Player>>>` becomes a list of keys plus a total
  store function `Uuid → Player`; `Game::players` and `Game::active_players`
  share the same `Arc` cells in Rust, which the single shared store models
  exactly.  Iteration order of a map is the order of its key list.
* The grid `Vec<Vec<Uuid>>` becomes a function `ℕ → ℕ → Uuid` indexed as
  `grid y x`, matching `grid[y][x]` in the source.
* `thread_rng` draws inside `Player::initialize` are passed in as explicit
  parameters.
-/

/-- Player id; `0` stands for `Uuid::default()`, the unclaimed sentinel. -/
abbrev Uuid := ℕ

/-- Models `enum Direction { Left, Right, Unchanged }`. -/
inductive Direction where
  | Left : Direction
  | Right : Direction
  | Unchanged : Direction
deriving DecidableEq

/-- Models `struct Player` from `curve_fever_common`.  The display name and
color strings are irrelevant to every analysed property and are omitted. -/
structure Player where
  uuid : Uuid
  host : Bool
  x : ℝ
  y : ℝ
  rotation : ℝ
  rotationDelta : ℝ
  direction : Direction
  xMax : ℕ
  yMax : ℕ
  lineWidth : ℕ
  speed : ℝ
  stopCount : ℝ
  invisible : Bool
  invisibleMax : ℕ
  invisibleCount : ℕ
  invisibleLength : ℕ
  points : ℕ
  xPrevRange : ℕ × ℕ
  yPrevRange : ℕ × ℕ

/-- Models `Player::tick`.  Field updates follow the source line by line:
cadence early-return, invisibility counter and toggles, turn application,
trig displacement, and per-axis clamping. -/
noncomputable def Player.tick (p : Player) : Player :=
  let stopCount := p.stopCount - 1
  if stopCount > 0 then { p with stopCount := stopCount }
  else
    let stopCount := (p.lineWidth : ℝ) - (p.lineWidth : ℝ) * p.speed
    let invisibleCount := p.invisibleCount - 1
    let invisible := if invisibleCount = 0 then true else p.invisible
    let invisibleCount := if invisibleCount = 0 then p.invisibleMax else invisibleCount
    let invisible :=
      if invisible = true ∧ invisibleCount < p.invisibleMax - p.invisibleLength then false
      else invisible
    let rotation :=
      match p.direction with
      | Direction.Left => p.rotation + p.rotationDelta
      | Direction.Right => p.rotation - p.rotationDelta
      | Direction.Unchanged => p.rotation
    let xChange := Real.sin (rotation * (Real.pi / 180)) * (p.lineWidth : ℝ)
    let yChange := Real.cos (rotation * (Real.pi / 180)) * (p.lineWidth : ℝ)
    let x := p.x + xChange
    let x := if x < 0 then 0 else x
    let x := if x > (p.xMax : ℝ) then (p.xMax : ℝ) else x
    let y := p.y + yChange
    let y := if y < 0 then 0 else y
    let y := if y > (p.yMax : ℝ) then (p.yMax : ℝ) else y
    { p with stopCount := stopCount, invisible := invisible,
             invisibleCount := invisibleCount, rotation := rotation, x := x, y := y }

/-- Models `Player::change_direction`. -/
def Player.changeDirection (p : Player) (d : Direction) : Player :=
  { p with direction := d }

/-- Models `Player::initialize`.  The three `thread_rng` draws
(`gen_range` for x, for y, and for the rotation multiple) are passed in as
the parameters `xR`, `yR`, `rotR`. -/
def Player.init (p : Player) (xR yR rotR : ℕ) : Player :=
  { p with direction := Direction.Unchanged,
           invisibleCount := p.invisibleMax,
           x := (xR : ℝ), y := (yR : ℝ),
           rotation := p.rotationDelta * (rotR : ℝ) }

/-- The simulation grid `Vec<Vec<Uuid>>`, as a total function `grid y x`. -/
abbrev Grid := ℕ → ℕ → Uuid

/-- Point update of the grid, modelling `grid[y][x] = v`. -/
def updGrid (g : Grid) (y x : ℕ) (v : Uuid) : Grid :=
  fun y2 x2 => if y2 = y ∧ x2 = x then v else g y2 x2

/-- Point update of the shared player store, modelling a write through the
`Arc<Mutex<Player>>` cell of one id. -/
def updStore (s : Uuid → Player) (i : Uuid) (p : Player) : Uuid → Player :=
  fun j => if j = i then p else s j

/-- Models the `pixel_range` closure inside `Game::tick`: the half-thickness
occupancy window of a coordinate, or `none` when a wall is hit. -/
noncomputable def pixelRange (half : ℝ) (value : ℝ) (maxValue : ℕ) : Option (ℕ × ℕ) :=
  let lower := value - half + 1
  if lower < 0 then none
  else
    let lowerN := ⌊lower⌋₊
    let upperN := ⌊value + half - 1⌋₊
    if upperN > maxValue - 1 then none else some (lowerN, upperN)

/-- Models the cell loop of the `check_pixels` closure: walk the window's
cells in iteration order; on a cell outside the previous window that is
already claimed, abort with `true` (collision) keeping the writes made so
far; otherwise stamp the cell and continue. -/
def stampCells (uuid : Uuid) (xPrev yPrev : ℕ × ℕ) :
    List (ℕ × ℕ) → Grid → Grid × Bool
  | [], grid => (grid, false)
  | (x, y) :: rest, grid =>
    if ((x < xPrev.1 ∨ x > xPrev.2) ∨ (y < yPrev.1 ∨ y > yPrev.2)) ∧ grid y x ≠ 0 then
      (grid, true)
    else stampCells uuid xPrev yPrev rest (updGrid grid y x uuid)

/-- The cell window `x_start..x_end` × `y_start..y_end` in the source's
iteration order (x outer loop, y inner loop, both exclusive upper bound). -/
def cellWindow (xs xe ys ye : ℕ) : List (ℕ × ℕ) :=
  (List.range' xs (xe - xs)).flatMap fun x =>
    (List.range' ys (ye - ys)).map fun y => (x, y)

/-- The per-player body of the loop in `Game::tick`: advance physics via
`Player::tick`, then (if visible) compute the occupancy windows, treating a
failed `pixel_range` as a wall collision, otherwise stamp/check the cells
and record the new previous window; collisions push the id onto the removal
list. -/
noncomputable def tickPlayer (width height : ℕ)
    (acc : Grid × (Uuid → Player) × List Uuid) (uuid : Uuid) :
    Grid × (Uuid → Player) × List Uuid :=
  let grid := acc.1
  let store := acc.2.1
  let remove := acc.2.2
  let p := (store uuid).tick
  let store := updStore store uuid p
  if p.invisible then (grid, store, remove)
  else
    let half := (p.lineWidth : ℝ) / 2
    match pixelRange half p.x width, pixelRange half p.y height with
    | some (xs, xe), some (ys, ye) =>
      match stampCells uuid p.xPrevRange p.yPrevRange (cellWindow xs xe ys ye) grid with
      | (grid2, true) => (grid2, store, uuid :: remove)
      | (grid2, false) =>
        (grid2,
         updStore store uuid { p with xPrevRange := (xs, xe), yPrevRange := (ys, ye) },
         remove)
    | _, _ => (grid, store, uuid :: remove)

/-- Models `struct Game`.  `players` and `active_players` are the key lists
`playerIds` and `activeIds` over the shared `store`. -/
structure Game where
  width : ℕ
  height : ℕ
  lineWidth : ℕ
  rotationDelta : ℝ
  singlePlayer : Bool
  grid : Grid
  playerIds : List Uuid
  activeIds : List Uuid
  store : Uuid → Player

/-- Models `Game::calculate_points`: the eliminated (or winning) player is
awarded `2^(players.len() - active_players.len())` points, with the active
count taken at the moment of the call. -/
def calculatePoints (g : Game) (uuid : Uuid) : Game :=
  let p := g.store uuid
  let p2 : Player :=
    { p with points := p.points + 2 ^ (g.playerIds.length - g.activeIds.length) }
  { g with store := updStore g.store uuid p2 }

/-- One step of the removal loop at the end of `Game::tick`: score the player
(unless single-player), then evict it from `active_players`. -/
def removeOne (g : Game) (uuid : Uuid) : Game :=
  let g2 := if g.singlePlayer then g else calculatePoints g uuid
  { g2 with activeIds := g2.activeIds.erase uuid }

/-- The removal loop at the end of `Game::tick`, over the collected removal
list in push order. -/
def applyRemovals (g : Game) (rem : List Uuid) : Game :=
  rem.foldl removeOne g

/-- The winner-bonus step closing `Game::tick`: in multiplayer mode, when
exactly one active player remains after the removals, that survivor receives
a scoring pass immediately (`*active_players.keys().next().unwrap()`; the
`none` arm is the unreachable empty-map default of that unwrap). -/
def winnerBonus (g : Game) : Game :=
  if g.singlePlayer = false ∧ g.activeIds.length = 1 then
    match g.activeIds.head? with
    | some uuid => calculatePoints g uuid
    | none => g
  else g

/-- Models `Game::tick`: the per-player pass, then the removal loop, then the
winner bonus when exactly one active player is left in multiplayer mode. -/
noncomputable def Game.tick (g : Game) : Game :=
  let acc := g.activeIds.foldl (tickPlayer g.width g.height) (g.grid, g.store, [])
  let g1 : Game := { g with grid := acc.1, store := acc.2.1 }
  winnerBonus (applyRemovals g1 acc.2.2.reverse)

/-- Models `Game::running`. -/
def Game.running (g : Game) : Bool :=
  if g.singlePlayer then !g.activeIds.isEmpty else decide (1 < g.activeIds.length)

/-- Models `Game::get_winner`.  The Rust function returns `Option<Uuid>`
(`None` while the round is still running) and calls `.unwrap()` on the first
entry of the relevant map; the outer `Option` of the result models that
`unwrap`: `none` is the panic on an empty map, `some r` is a normal return
of `r`. -/
def Game.getWinner? (g : Game) : Option (Option Uuid) :=
  if g.running then some none
  else if g.singlePlayer then (g.playerIds.head?).map some
  else (g.activeIds.head?).map some

/-- Models `Game::on_move`: look the id up in `active_players` only, failing
with the "no player with uuid" error when absent, otherwise apply
`change_direction` through the shared cell. -/
def Game.onMove (g : Game) (id : Uuid) (d : Direction) : Except String Game :=
  if id ∈ g.activeIds then
    Except.ok { g with store := updStore g.store id ((g.store id).changeDirection d) }
  else
    Except.error ("There is no player with uuid: " ++ toString id)

/-- Models the parts of `struct Room` (server crate) that
`Room::on_client_disconnected` touches: the connection map, the key list of
the `players` map, and the shared player store holding the host flags.
Socket addresses are modelled as `ℕ`. -/
structure RoomM where
  connections : List (ℕ × Uuid)
  roomPlayerIds : List Uuid
  store : Uuid → Player

/-- Models `Room::on_client_disconnected`.  The second component is the
`PlayerDisconnected(departed, id_host)` broadcast payload (`none` when the
address was unknown and nothing is broadcast). -/
def RoomM.onClientDisconnected (r : RoomM) (addr : ℕ) : RoomM × Option (Uuid × Uuid) :=
  match r.connections.lookup addr with
  | none => (r, none)
  | some id =>
    let connections := r.connections.filter fun c => decide (c.1 ≠ addr)
    let host := (r.store id).host
    let roomPlayerIds := r.roomPlayerIds.erase id
    let result :=
      if host then
        match roomPlayerIds.head? with
        | some pid =>
          let p := r.store pid
          (updStore r.store pid { p with host := true }, pid)
        | none => (r.store, id)
      else (r.store, id)
    ({ connections := connections, roomPlayerIds := roomPlayerIds, store := result.1 },
     some (id, result.2))

/-- An interaction step on one player: a physics tick or an intent change,
used to state the clamp invariant over arbitrary interleavings. -/
inductive PlayerOp where
  | tick : PlayerOp
  | changeDir : Direction → PlayerOp

/-- Apply one interaction step. -/
noncomputable def Player.applyOp (p : Player) : PlayerOp → Player
  | PlayerOp.tick => p.tick
  | PlayerOp.changeDir d => p.changeDirection d

/-- Apply a sequence of interaction steps. -/
noncomputable def Player.applyOps (p : Player) (ops : List PlayerOp) : Player :=
  ops.foldl Player.applyOp p

/-- The clamp invariant: the position lies in `[0, x_max] × [0, y_max]`. -/
def Player.inBounds (p : Player) : Prop :=
  0 ≤ p.x ∧ p.x ≤ (p.xMax : ℝ) ∧ 0 ≤ p.y ∧ p.y ≤ (p.yMax : ℝ)

/-- A player as built by `Player::new` for the server's room parameters
(`width * 2 = 1000`, `height * 2 = 800`, `line_width = 2`,
`rotation_delta = 2.0`, `speed = 0.8`). -/
noncomputable def basePlayer : Player :=
  { uuid := 0, host := false, x := 0, y := 0, rotation := 0, rotationDelta := 2,
    direction := Direction.Unchanged, xMax := 1000, yMax := 800, lineWidth := 2,
    speed := 0.8, stopCount := 0, invisible := false, invisibleMax := 100,
    invisibleCount := 0, invisibleLength := 3, points := 0,
    xPrevRange := (0, 0), yPrevRange := (0, 0) }

/-! ### Helper lemmas about the embedded operations -/

theorem sin_deg_180 : Real.sin (180 * (Real.pi / 180)) = 0 := by
  rw [show (180 : ℝ) * (Real.pi / 180) = Real.pi by ring]
  exact Real.sin_pi

theorem cos_deg_180 : Real.cos (180 * (Real.pi / 180)) = -1 := by
  rw [show (180 : ℝ) * (Real.pi / 180) = Real.pi by ring]
  exact Real.cos_pi

/-- Clamping a value into `[0, m]` the way `Player::tick` does lands in
`[0, m]` unconditionally. -/
theorem clamp_mem (a m : ℝ) (hm : 0 ≤ m) :
    0 ≤ (if (if a < 0 then 0 else a) > m then m else if a < 0 then 0 else a)
    ∧ (if (if a < 0 then 0 else a) > m then m else if a < 0 then 0 else a) ≤ m := by
  split_ifs <;> constructor <;> linarith

/-- `Player::tick` never touches the previous-window bookkeeping fields. -/
theorem Player.tick_prevRange (p : Player) :
    (p.tick).xPrevRange = p.xPrevRange ∧ (p.tick).yPrevRange = p.yPrevRange := by
  unfold Player.tick
  split <;> dsimp only <;> split_ifs <;> simp

/-- `Player::tick` keeps the field bounds. -/
theorem Player.tick_bounds_fields (p : Player) :
    (p.tick).xMax = p.xMax ∧ (p.tick).yMax = p.yMax := by
  unfold Player.tick
  split <;> dsimp only <;> split_ifs <;> simp

/-- A single `Player::tick` keeps the position inside the field. -/
theorem Player.tick_inBounds (p : Player) (h : p.inBounds) : (p.tick).inBounds := by
  obtain ⟨hx0, hx1, hy0, hy1⟩ := h
  unfold Player.inBounds Player.tick
  dsimp only
  by_cases hc : p.stopCount - 1 > 0
  · rw [if_pos hc]
    exact ⟨hx0, hx1, hy0, hy1⟩
  · rw [if_neg hc]
    exact ⟨(clamp_mem _ _ (Nat.cast_nonneg _)).1, (clamp_mem _ _ (Nat.cast_nonneg _)).2,
      (clamp_mem _ _ (Nat.cast_nonneg _)).1, (clamp_mem _ _ (Nat.cast_nonneg _)).2⟩

/-- `Player::change_direction` does not touch the position or the bounds. -/
theorem Player.changeDirection_inBounds (p : Player) (d : Direction) (h : p.inBounds) :
    (p.changeDirection d).inBounds := h

theorem removeOne_playerIds (g : Game) (u : Uuid) :
    (removeOne g u).playerIds = g.playerIds := by
  cases h : g.singlePlayer <;> simp [removeOne, calculatePoints, h]

theorem removeOne_singlePlayer (g : Game) (u : Uuid) :
    (removeOne g u).singlePlayer = g.singlePlayer := by
  cases h : g.singlePlayer <;> simp [removeOne, calculatePoints, h]

theorem removeOne_activeIds (g : Game) (u : Uuid) :
    (removeOne g u).activeIds = g.activeIds.erase u := by
  cases h : g.singlePlayer <;> simp [removeOne, calculatePoints, h]

theorem removeOne_store_ne (g : Game) (u v : Uuid) (h : v ≠ u) :
    (removeOne g u).store v = g.store v := by
  cases hs : g.singlePlayer <;> simp [removeOne, calculatePoints, updStore, hs, h]

theorem removeOne_points_self (g : Game) (u : Uuid) (hsp : g.singlePlayer = false) :
    ((removeOne g u).store u).points
      = (g.store u).points + 2 ^ (g.playerIds.length - g.activeIds.length) := by
  simp [removeOne, calculatePoints, updStore, hsp]

theorem applyRemovals_cons (g : Game) (r : Uuid) (rest : List Uuid) :
    applyRemovals g (r :: rest) = applyRemovals (removeOne g r) rest := rfl

theorem applyRemovals_store_not_mem (rem : List Uuid) :
    ∀ (g : Game) (u : Uuid), u ∉ rem → (applyRemovals g rem).store u = g.store u := by
  induction rem with
  | nil => intro g u _; rfl
  | cons r rest ih =>
    intro g u hu
    rw [applyRemovals_cons, ih _ _ (fun hm => hu (List.mem_cons_of_mem _ hm))]
    exact removeOne_store_ne _ _ _ (fun he => hu (he ▸ List.mem_cons_self _ _))

/-- The body of the per-player pass skips everything (no grid access, no
removal marking, no window update) for a player that is invisible after its
physics advance. -/
theorem tickPlayer_invisible_eq (width height : ℕ) (grid : Grid)
    (store : Uuid → Player) (rem : List Uuid) (u : Uuid)
    (h : ((store u).tick).invisible = true) :
    tickPlayer width height (grid, store, rem) u
      = (grid, updStore store u ((store u).tick), rem) := by
  unfold tickPlayer
  dsimp only
  rw [if_pos h]

/-- The award paid by the i-th entry of one removal pass: at the moment its
points are computed the pass has already evicted exactly `i` earlier
players, and the eliminated player itself is still counted as active. -/
theorem applyRemovals_award (rem : List Uuid) :
    ∀ (g : Game) (i : ℕ) (hi : i < rem.length),
      rem.Nodup → (∀ x ∈ rem, x ∈ g.activeIds) → g.singlePlayer = false →
      ((applyRemovals g rem).store (rem.get ⟨i, hi⟩)).points
        = (g.store (rem.get ⟨i, hi⟩)).points
          + 2 ^ (g.playerIds.length - (g.activeIds.length - i)) := by
  induction rem with
  | nil => intro g i hi; exact absurd hi (by simp)
  | cons r rest ih =>
    intro g i hi hnd hsub hsp
    obtain ⟨hr, hndr⟩ := List.nodup_cons.mp hnd
    rw [applyRemovals_cons]
    cases i with
    | zero =>
      have hget : (r :: rest).get ⟨0, hi⟩ = r := rfl
      rw [hget, applyRemovals_store_not_mem rest _ r hr, removeOne_points_self g r hsp,
        Nat.sub_zero]
    | succ i2 =>
      have hi2 : i2 < rest.length := by simpa using hi
      have hget : (r :: rest).get ⟨i2 + 1, hi⟩ = rest.get ⟨i2, hi2⟩ := rfl
      have hmem : rest.get ⟨i2, hi2⟩ ∈ rest := List.get_mem rest i2 hi2
      have hne : rest.get ⟨i2, hi2⟩ ≠ r := fun he => hr (by rw [he] at hmem; exact hmem)
      have hsub2 : ∀ x ∈ rest, x ∈ (removeOne g r).activeIds := by
        intro x hx
        rw [removeOne_activeIds]
        exact (List.mem_erase_of_ne (fun he => hr (by rw [he] at hx; exact hx))).mpr
          (hsub x (List.mem_cons_of_mem _ hx))
      have hsp2 : (removeOne g r).singlePlayer = false := by
        rw [removeOne_singlePlayer]; exact hsp
      have hrec := ih (removeOne g r) i2 hi2 hndr hsub2 hsp2
      rw [hget, hrec, removeOne_store_ne g r _ hne, removeOne_playerIds,
        removeOne_activeIds]
      have hrl : r ∈ g.activeIds := hsub r (List.mem_cons_self _ _)
      have hlen : (g.activeIds.erase r).length + 1 = g.activeIds.length :=
        List.length_erase_add_one hrl
      have hexp : (g.activeIds.erase r).length - i2 = g.activeIds.length - (i2 + 1) := by
        omega
      rw [hexp]

/-- `Player::tick` never touches the score. -/
theorem Player.tick_points (p : Player) : (p.tick).points = p.points := by
  unfold Player.tick
  split <;> dsimp only <;> split_ifs <;> simp

/-- Frame facts about one step of the per-player pass: only the processed
id's store cell changes, and the removal list either stays or gains exactly
the processed id at its head. -/
theorem tickPlayer_frame (width height : ℕ) (acc : Grid × (Uuid → Player) × List Uuid)
    (uuid : Uuid) :
    (∀ v : Uuid, v ≠ uuid → (tickPlayer width height acc uuid).2.1 v = acc.2.1 v)
    ∧ ((tickPlayer width height acc uuid).2.2 = acc.2.2
       ∨ (tickPlayer width height acc uuid).2.2 = uuid :: acc.2.2) := by
  unfold tickPlayer
  dsimp only
  split_ifs with hinv
  · exact ⟨fun v hv => by simp [updStore, hv], Or.inl rfl⟩
  · rcases hx : pixelRange ((((acc.2.1 uuid).tick).lineWidth : ℝ) / 2)
        ((acc.2.1 uuid).tick).x width with _ | ⟨xs, xe⟩
    · exact ⟨fun v hv => by simp [updStore, hv], Or.inr rfl⟩
    · rcases hy : pixelRange ((((acc.2.1 uuid).tick).lineWidth : ℝ) / 2)
          ((acc.2.1 uuid).tick).y height with _ | ⟨ys, ye⟩
      · exact ⟨fun v hv => by simp [updStore, hv], Or.inr rfl⟩
      · dsimp only
        rcases hs : stampCells uuid ((acc.2.1 uuid).tick).xPrevRange
            ((acc.2.1 uuid).tick).yPrevRange (cellWindow xs xe ys ye) acc.1
          with ⟨grid2, b⟩
        cases b
        · exact ⟨fun v hv => by simp [updStore, hv], Or.inl rfl⟩
        · exact ⟨fun v hv => by simp [updStore, hv], Or.inr rfl⟩

/-- One step of the per-player pass never changes any player's score
(physics and window bookkeeping only). -/
theorem tickPlayer_points (width height : ℕ) (acc : Grid × (Uuid → Player) × List Uuid)
    (uuid v : Uuid) :
    ((tickPlayer width height acc uuid).2.1 v).points = (acc.2.1 v).points := by
  by_cases hv : v = uuid
  · subst hv
    unfold tickPlayer
    dsimp only
    split_ifs with hinv
    · simp [updStore, Player.tick_points]
    · rcases hx : pixelRange ((((acc.2.1 v).tick).lineWidth : ℝ) / 2)
          ((acc.2.1 v).tick).x width with _ | ⟨xs, xe⟩
      · simp [updStore, Player.tick_points]
      · rcases hy : pixelRange ((((acc.2.1 v).tick).lineWidth : ℝ) / 2)
            ((acc.2.1 v).tick).y height with _ | ⟨ys, ye⟩
        · simp [updStore, Player.tick_points]
        · dsimp only
          rcases hs : stampCells v ((acc.2.1 v).tick).xPrevRange
              ((acc.2.1 v).tick).yPrevRange (cellWindow xs xe ys ye) acc.1
            with ⟨grid2, b⟩
          cases b <;> simp [updStore, Player.tick_points]
  · rw [(tickPlayer_frame width height acc uuid).1 v hv]

/-- The whole per-player pass leaves the store cell of an unprocessed id
untouched and only ever extends the removal list. -/
theorem foldl_tickPlayer_frame (width height : ℕ) (l : List Uuid) :
    ∀ (acc : Grid × (Uuid → Player) × List Uuid) (u : Uuid), u ∉ l →
      ((l.foldl (tickPlayer width height) acc).2.1 u = acc.2.1 u
       ∧ (u ∈ acc.2.2 → u ∈ (l.foldl (tickPlayer width height) acc).2.2)) := by
  induction l with
  | nil => exact fun acc u _ => ⟨rfl, fun h => h⟩
  | cons r rest ih =>
    intro acc u hu
    have hur : u ≠ r := fun he => hu (he ▸ List.mem_cons_self _ _)
    have hurest : u ∉ rest := fun hm => hu (List.mem_cons_of_mem _ hm)
    rw [List.foldl_cons]
    refine ⟨?_, ?_⟩
    · rw [(ih _ u hurest).1, (tickPlayer_frame width height acc r).1 u hur]
    · intro hmem
      refine (ih _ u hurest).2 ?_
      rcases (tickPlayer_frame width height acc r).2 with he | he <;> rw [he]
      · exact hmem
      · exact List.mem_cons_of_mem _ hmem

/-- The whole per-player pass never changes any score. -/
theorem foldl_tickPlayer_points (width height : ℕ) (l : List Uuid) :
    ∀ (acc : Grid × (Uuid → Player) × List Uuid) (v : Uuid),
      ((l.foldl (tickPlayer width height) acc).2.1 v).points = (acc.2.1 v).points := by
  induction l with
  | nil => exact fun acc v => rfl
  | cons r rest ih =>
    intro acc v
    rw [List.foldl_cons, ih, tickPlayer_points]

/-- Every id on the removal list produced by the pass was either processed
in this pass or already on the incoming list. -/
theorem foldl_tickPlayer_remove_sub (width height : ℕ) (l : List Uuid) :
    ∀ (acc : Grid × (Uuid → Player) × List Uuid) (v : Uuid),
      v ∈ (l.foldl (tickPlayer width height) acc).2.2 → v ∈ l ∨ v ∈ acc.2.2 := by
  induction l with
  | nil => exact fun acc v h => Or.inr h
  | cons r rest ih =>
    intro acc v hv
    rw [List.foldl_cons] at hv
    rcases ih _ v hv with h | h
    · exact Or.inl (List.mem_cons_of_mem _ h)
    · rcases (tickPlayer_frame width height acc r).2 with he | he
      · exact Or.inr (he ▸ h)
      · rw [he] at h
        rcases List.mem_cons.mp h with rfl | h2
        · exact Or.inl (List.mem_cons_self _ _)
        · exact Or.inr h2

/-- The removal list produced by the pass has no duplicates when the
processed ids are distinct and disjoint from the incoming list. -/
theorem foldl_tickPlayer_remove_nodup (width height : ℕ) (l : List Uuid) :
    ∀ (acc : Grid × (Uuid → Player) × List Uuid), l.Nodup → acc.2.2.Nodup →
      (∀ x ∈ l, x ∉ acc.2.2) → (l.foldl (tickPlayer width height) acc).2.2.Nodup := by
  induction l with
  | nil => exact fun acc _ h _ => h
  | cons r rest ih =>
    intro acc hnd hacc hdisj
    obtain ⟨hr, hndr⟩ := List.nodup_cons.mp hnd
    rw [List.foldl_cons]
    refine ih _ hndr ?_ ?_
    · rcases (tickPlayer_frame width height acc r).2 with he | he <;> rw [he]
      · exact hacc
      · exact List.nodup_cons.mpr ⟨hdisj r (List.mem_cons_self _ _), hacc⟩
    · intro x hx
      rcases (tickPlayer_frame width height acc r).2 with he | he <;> rw [he]
      · exact hdisj x (List.mem_cons_of_mem _ hx)
      · intro hmem
        rcases List.mem_cons.mp hmem with rfl | h2
        · exact hr hx
        · exact hdisj x (List.mem_cons_of_mem _ hx) h2

theorem applyRemovals_playerIds (rem : List Uuid) :
    ∀ g : Game, (applyRemovals g rem).playerIds = g.playerIds := by
  induction rem with
  | nil => exact fun g => rfl
  | cons r rest ih => intro g; rw [applyRemovals_cons, ih, removeOne_playerIds]

theorem applyRemovals_singlePlayer (rem : List Uuid) :
    ∀ g : Game, (applyRemovals g rem).singlePlayer = g.singlePlayer := by
  induction rem with
  | nil => exact fun g => rfl
  | cons r rest ih => intro g; rw [applyRemovals_cons, ih, removeOne_singlePlayer]

theorem applyRemovals_active_subset (rem : List Uuid) :
    ∀ g : Game, (applyRemovals g rem).activeIds ⊆ g.activeIds := by
  induction rem with
  | nil => exact fun g => fun _ h => h
  | cons r rest ih =>
    intro g v hv
    rw [applyRemovals_cons] at hv
    have := ih _ hv
    rw [removeOne_activeIds] at this
    exact List.erase_subset _ _ this

theorem applyRemovals_active_nodup (rem : List Uuid) :
    ∀ g : Game, g.activeIds.Nodup → (applyRemovals g rem).activeIds.Nodup := by
  induction rem with
  | nil => exact fun g h => h
  | cons r rest ih =>
    intro g hnd
    rw [applyRemovals_cons]
    exact ih _ (by rw [removeOne_activeIds]; exact hnd.erase r)

/-- An eliminated id (member of the removal list) is gone from
`active_players` after the removal loop. -/
theorem applyRemovals_not_mem_of_mem (rem : List Uuid) :
    ∀ (g : Game), g.activeIds.Nodup → ∀ u ∈ rem, u ∉ (applyRemovals g rem).activeIds := by
  induction rem with
  | nil => intro g _ u hu; exact absurd hu (by simp)
  | cons r rest ih =>
    intro g hnd u hu
    rw [applyRemovals_cons]
    rcases List.mem_cons.mp hu with rfl | hu2
    · intro hcon
      have hsub := applyRemovals_active_subset rest _ hcon
      rw [removeOne_activeIds] at hsub
      exact hnd.not_mem_erase hsub
    · exact ih _ (by rw [removeOne_activeIds]; exact hnd.erase r) u hu2

/-- A surviving id (not on the removal list) keeps its `active_players`
membership through the removal loop. -/
theorem applyRemovals_mem_of_not_mem (rem : List Uuid) :
    ∀ (g : Game) (u : Uuid), u ∉ rem → u ∈ g.activeIds →
      u ∈ (applyRemovals g rem).activeIds := by
  induction rem with
  | nil => exact fun g u _ h => h
  | cons r rest ih =>
    intro g u hu hmem
    have hur : u ≠ r := fun he => hu (he ▸ List.mem_cons_self _ _)
    rw [applyRemovals_cons]
    refine ih _ u (fun hm => hu (List.mem_cons_of_mem _ hm)) ?_
    rw [removeOne_activeIds]
    exact (List.mem_erase_of_ne hur).mpr hmem

/-- The removal loop shrinks `active_players` by exactly the length of the
removal list. -/
theorem applyRemovals_length (rem : List Uuid) :
    ∀ g : Game, rem.Nodup → (∀ x ∈ rem, x ∈ g.activeIds) →
      (applyRemovals g rem).activeIds.length = g.activeIds.length - rem.length := by
  induction rem with
  | nil => exact fun g _ _ => rfl
  | cons r rest ih =>
    intro g hnd hsub
    obtain ⟨hr, hndr⟩ := List.nodup_cons.mp hnd
    have hrl : r ∈ g.activeIds := hsub r (List.mem_cons_self _ _)
    have hlen : (g.activeIds.erase r).length + 1 = g.activeIds.length :=
      List.length_erase_add_one hrl
    have hsub2 : ∀ x ∈ rest, x ∈ (removeOne g r).activeIds := by
      intro x hx
      rw [removeOne_activeIds]
      exact (List.mem_erase_of_ne (fun he => hr (by rw [he] at hx; exact hx))).mpr
        (hsub x (List.mem_cons_of_mem _ hx))
    rw [applyRemovals_cons, ih _ hndr hsub2, removeOne_activeIds]
    simp only [List.length_cons]
    omega

/-- The award paid to any member of one removal pass, with bounds on the
active count at the moment of the award: it is taken after the earlier
evictions of the same pass but still includes the player itself. -/
theorem applyRemovals_award_mem (rem : List Uuid) :
    ∀ (g : Game) (u : Uuid), rem.Nodup → (∀ x ∈ rem, x ∈ g.activeIds) →
      g.singlePlayer = false → u ∈ rem →
      ∃ L : ℕ, ((applyRemovals g rem).store u).points
          = (g.store u).points + 2 ^ (g.playerIds.length - L)
        ∧ g.activeIds.length - rem.length < L ∧ L ≤ g.activeIds.length := by
  induction rem with
  | nil => intro g u _ _ _ hu; exact absurd hu (by simp)
  | cons r rest ih =>
    intro g u hnd hsub hsp hu
    obtain ⟨hr, hndr⟩ := List.nodup_cons.mp hnd
    have hrl : r ∈ g.activeIds := hsub r (List.mem_cons_self _ _)
    have hL1 : 1 ≤ g.activeIds.length := by
      cases hc : g.activeIds with
      | nil => rw [hc] at hrl; exact absurd hrl (by simp)
      | cons a as => simp [hc]
    rw [applyRemovals_cons]
    rcases List.mem_cons.mp hu with rfl | hu2
    · refine ⟨g.activeIds.length, ?_, by simp only [List.length_cons]; omega, le_refl _⟩
      rw [applyRemovals_store_not_mem rest _ u hr, removeOne_points_self g u hsp]
    · have hsub2 : ∀ x ∈ rest, x ∈ (removeOne g r).activeIds := by
        intro x hx
        rw [removeOne_activeIds]
        exact (List.mem_erase_of_ne (fun he => hr (by rw [he] at hx; exact hx))).mpr
          (hsub x (List.mem_cons_of_mem _ hx))
      have hsp2 : (removeOne g r).singlePlayer = false := by
        rw [removeOne_singlePlayer]; exact hsp
      have hune : u ≠ r := fun he => hr (by rw [he] at hu2; exact hu2)
      obtain ⟨L, hpts, hlo, hhi⟩ := ih (removeOne g r) u hndr hsub2 hsp2 hu2
      refine ⟨L, ?_, ?_, ?_⟩
      · rw [hpts, removeOne_store_ne g r u hune, removeOne_playerIds]
      · have : (removeOne g r).activeIds.length = g.activeIds.length - 1 := by
          rw [removeOne_activeIds]
          have := List.length_erase_add_one hrl
          omega
        rw [this] at hlo
        simp only [List.length_cons]
        omega
      · have : (removeOne g r).activeIds.length = g.activeIds.length - 1 := by
          rw [removeOne_activeIds]
          have := List.length_erase_add_one hrl
          omega
        rw [this] at hhi
        omega

theorem winnerBonus_activeIds (g : Game) : (winnerBonus g).activeIds = g.activeIds := by
  unfold winnerBonus
  split
  · rcases hh : g.activeIds.head? with _ | v
    · rfl
    · simp [calculatePoints]
  · rfl

theorem winnerBonus_playerIds (g : Game) : (winnerBonus g).playerIds = g.playerIds := by
  unfold winnerBonus
  split
  · rcases hh : g.activeIds.head? with _ | v
    · rfl
    · simp [calculatePoints]
  · rfl

theorem winnerBonus_singlePlayer (g : Game) :
    (winnerBonus g).singlePlayer = g.singlePlayer := by
  unfold winnerBonus
  split
  · rcases hh : g.activeIds.head? with _ | v
    · rfl
    · simp [calculatePoints]
  · rfl

/-- The winner bonus can only touch the store cell of the surviving active
player, never that of an id no longer in `active_players`. -/
theorem winnerBonus_store_not_mem (g : Game) (u : Uuid) (hu : u ∉ g.activeIds) :
    (winnerBonus g).store u = g.store u := by
  unfold winnerBonus
  split
  · rcases hh : g.activeIds.head? with _ | v
    · rfl
    · have hv : v ∈ g.activeIds := List.mem_of_mem_head? (by rw [hh]; rfl)
      have hne : u ≠ v := fun he => hu (by rw [he]; exact hv)
      simp [calculatePoints, updStore, hne]
  · rfl

/-- `Game::tick` written out: the per-player pass, then the removal loop,
then the winner bonus. -/
theorem Game.tick_eq (g : Game) :
    g.tick = winnerBonus (applyRemovals
      { g with
        grid := (g.activeIds.foldl (tickPlayer g.width g.height) (g.grid, g.store, [])).1,
        store :=
          (g.activeIds.foldl (tickPlayer g.width g.height) (g.grid, g.store, [])).2.1 }
      (g.activeIds.foldl (tickPlayer g.width g.height)
        (g.grid, g.store, [])).2.2.reverse) := rfl

theorem Game.tick_playerIds (g : Game) : (g.tick).playerIds = g.playerIds := by
  rw [Game.tick_eq, winnerBonus_playerIds, applyRemovals_playerIds]

theorem Game.tick_singlePlayer (g : Game) : (g.tick).singlePlayer = g.singlePlayer := by
  rw [Game.tick_eq, winnerBonus_singlePlayer, applyRemovals_singlePlayer]

/-- A tick never adds a player back to `active_players`. -/
theorem Game.tick_active_subset (g : Game) : (g.tick).activeIds ⊆ g.activeIds := by
  rw [Game.tick_eq, winnerBonus_activeIds]
  have h2 := applyRemovals_active_subset
    (g.activeIds.foldl (tickPlayer g.width g.height) (g.grid, g.store, [])).2.2.reverse
    { g with
      grid := (g.activeIds.foldl (tickPlayer g.width g.height) (g.grid, g.store, [])).1,
      store :=
        (g.activeIds.foldl (tickPlayer g.width g.height) (g.grid, g.store, [])).2.1 }
  exact fun v hv => h2 hv

theorem Game.tick_active_nodup (g : Game) (hnd : g.activeIds.Nodup) :
    (g.tick).activeIds.Nodup := by
  rw [Game.tick_eq, winnerBonus_activeIds]
  exact applyRemovals_active_nodup _ _ hnd

theorem Game.tick_active_length_le (g : Game) (hnd : g.activeIds.Nodup) :
    (g.tick).activeIds.length ≤ g.activeIds.length :=
  ((Game.tick_active_nodup g hnd).subperm (Game.tick_active_subset g)).length_le

/-- The award of a player eliminated by one `Game::tick`: its points grow by
`2^(total - L)` where `L`, the active count at the moment of the award,
still includes the player itself and everyone not yet evicted in this pass —
so it is strictly above the post-tick active count and at most the pre-tick
one. -/
theorem Game.tick_award (g : Game) (hsp : g.singlePlayer = false)
    (hnd : g.activeIds.Nodup) (u : Uuid) (hu : u ∈ g.activeIds)
    (hnot : u ∉ (g.tick).activeIds) :
    ∃ L : ℕ, ((g.tick).store u).points = (g.store u).points + 2 ^ (g.playerIds.length - L)
      ∧ (g.tick).activeIds.length < L ∧ L ≤ g.activeIds.length := by
  rw [Game.tick_eq] at hnot ⊢
  rw [winnerBonus_activeIds] at hnot
  generalize hacc :
    g.activeIds.foldl (tickPlayer g.width g.height) (g.grid, g.store, []) = accv
    at hnot ⊢
  have hsubrem : ∀ x ∈ accv.2.2.reverse, x ∈ g.activeIds := by
    intro x hx
    rw [List.mem_reverse, ← hacc] at hx
    rcases foldl_tickPlayer_remove_sub g.width g.height g.activeIds _ x hx with h | h
    · exact h
    · exact absurd h (by simp)
  have hndrem : accv.2.2.reverse.Nodup := by
    rw [List.nodup_reverse, ← hacc]
    exact foldl_tickPlayer_remove_nodup g.width g.height g.activeIds _ hnd
      List.nodup_nil (by intro x _; simp)
  have humem : u ∈ accv.2.2.reverse := by
    by_contra hcon
    exact hnot (applyRemovals_mem_of_not_mem _ _ u hcon hu)
  obtain ⟨L, hpts, hlo, hhi⟩ := applyRemovals_award_mem accv.2.2.reverse
    { g with grid := accv.1, store := accv.2.1 } u hndrem hsubrem hsp humem
  refine ⟨L, ?_, ?_, hhi⟩
  · rw [winnerBonus_store_not_mem _ u hnot, hpts]
    have hp2 : (accv.2.1 u).points = (g.store u).points := by
      rw [← hacc]
      exact foldl_tickPlayer_points g.width g.height g.activeIds _ u
    show (accv.2.1 u).points + _ = _
    rw [hp2]
  · have hlen := applyRemovals_length accv.2.2.reverse
      { g with grid := accv.1, store := accv.2.1 } hndrem hsubrem
    rw [winnerBonus_activeIds, hlen]
    exact hlo

/-- Iterating `Game::tick` preserves the roster and the mode, keeps
`active_players` duplicate-free and never grows it. -/
theorem Game.tick_iter_facts (g : Game) (k : ℕ) :
    (Game.tick^[k] g).playerIds = g.playerIds
    ∧ (Game.tick^[k] g).singlePlayer = g.singlePlayer
    ∧ (g.activeIds.Nodup →
        (Game.tick^[k] g).activeIds.Nodup
        ∧ (Game.tick^[k] g).activeIds.length ≤ g.activeIds.length) := by
  induction k with
  | zero => exact ⟨rfl, rfl, fun h => ⟨h, le_refl _⟩⟩
  | succ n ih =>
    obtain ⟨hp, hs, hact⟩ := ih
    rw [Function.iterate_succ_apply']
    refine ⟨?_, ?_, ?_⟩
    · rw [Game.tick_playerIds, hp]
    · rw [Game.tick_singlePlayer, hs]
    · intro hnd
      obtain ⟨hnd2, hle2⟩ := hact hnd
      exact ⟨Game.tick_active_nodup _ hnd2,
        le_trans (Game.tick_active_length_le _ hnd2) hle2⟩

/-! ### Concrete states and claim theorems -/

noncomputable def pC5 : Player :=
  { basePlayer with uuid := 7, invisible := true, invisibleCount := 2 }

/-- C5 counterexample: `Player::initialize` does not reset the `invisible`
flag; a player that was invisible before the call is still invisible
immediately after it, refuting "immediately after Player::initialize() the
player is currently visible (invisible is false)" for this prior state. -/
theorem C5_counterexample : ¬((pC5.init 300 200 5).invisible = false) := by
  norm_num [Player.init, pC5, basePlayer]

/-- C5 (amended): `Player::initialize` resets the invisibility counter to
the full visible-window maximum and resets the turn intent, but leaves the
`invisible` flag with whatever value it had before the call. -/
theorem C5_init_schedule (p : Player) (xR yR rotR : ℕ) :
    (p.init xR yR rotR).invisibleCount = p.invisibleMax
    ∧ (p.init xR yR rotR).invisible = p.invisible
    ∧ (p.init xR yR rotR).direction = Direction.Unchanged := by
  simp [Player.init]

/-- C6: starting from any position in `[0, x_max] × [0, y_max]`, any
sequence of `Player::tick` calls and intent changes (arbitrary headings,
turn rates, cadence skips) keeps the position in `[0, x_max] × [0, y_max]`. -/
theorem C6_clamp_invariant (p : Player) (ops : List PlayerOp) (h : p.inBounds) :
    (p.applyOps ops).inBounds := by
  induction ops generalizing p with
  | nil => exact h
  | cons op rest ih =>
    have hstep : p.applyOps (op :: rest) = (p.applyOp op).applyOps rest := rfl
    rw [hstep]
    apply ih
    cases op with
    | tick => exact p.tick_inBounds h
    | changeDir d => exact p.changeDirection_inBounds d h

/-- C6 witness: the invariant applied to the server-default player and a
one-tick sequence. -/
theorem C6_clamp_witness :
    basePlayer.inBounds ∧ (basePlayer.applyOps [PlayerOp.tick]).inBounds :=
  ⟨by norm_num [Player.inBounds, basePlayer],
   C6_clamp_invariant basePlayer [PlayerOp.tick]
     (by norm_num [Player.inBounds, basePlayer])⟩

/-- C8: during `Game::tick`, a player that is invisible (after its physics
advance) is skipped entirely: the grid is untouched on its behalf, it is not
marked for removal, and (since `Player::tick` never writes the bookkeeping
fields) its recorded previous occupancy window is unchanged. -/
theorem C8_invisible_skip :
    (∀ (width height : ℕ) (grid : Grid) (store : Uuid → Player) (rem : List Uuid)
        (u : Uuid), ((store u).tick).invisible = true →
        tickPlayer width height (grid, store, rem) u
          = (grid, updStore store u ((store u).tick), rem))
    ∧ ∀ p : Player,
        (p.tick).xPrevRange = p.xPrevRange ∧ (p.tick).yPrevRange = p.yPrevRange :=
  ⟨tickPlayer_invisible_eq, Player.tick_prevRange⟩

noncomputable def pC8 : Player :=
  { basePlayer with uuid := 1, invisible := true, invisibleCount := 99 }

noncomputable def storeC8 : Uuid → Player := fun _ => pC8

noncomputable def gridC8 : Grid := fun _ _ => 0

/-- C8 witness: a concrete player mid-invisibility-window. -/
theorem C8_invisible_witness :
    ((storeC8 1).tick).invisible = true
    ∧ tickPlayer 1000 800 (gridC8, storeC8, []) 1
        = (gridC8, updStore storeC8 1 ((storeC8 1).tick), []) :=
  ⟨by norm_num [Player.tick, storeC8, pC8, basePlayer],
   C8_invisible_skip.1 1000 800 gridC8 storeC8 [] 1
     (by norm_num [Player.tick, storeC8, pC8, basePlayer])⟩

noncomputable def pC7 : Player :=
  { basePlayer with uuid := 1, stopCount := 2, rotation := 10, invisibleCount := 50,
                    lineWidth := 10 }

noncomputable def gameC7 : Game :=
  { width := 1000, height := 800, lineWidth := 10, rotationDelta := 2,
    singlePlayer := false, grid := fun _ _ => 0,
    playerIds := [1, 2], activeIds := [1, 2],
    store := fun _ => pC7 }

noncomputable def afterC7 : Game :=
  { gameC7 with
    store := updStore gameC7.store 1 ((gameC7.store 1).changeDirection Direction.Left) }

/-- C7 counterexample: `on_move` succeeds for the active player 1 and sets
the Left intent, the turn rate is non-zero, yet the player's very next
`tick()` (a cadence skip, `stop_count = 2`) leaves the heading unchanged —
the intent is not observable on the next tick's heading. -/
theorem C7_counterexample :
    gameC7.onMove 1 Direction.Left = Except.ok afterC7
    ∧ (afterC7.store 1).direction = Direction.Left
    ∧ (gameC7.store 1).rotationDelta ≠ 0
    ∧ ((afterC7.store 1).tick).rotation = (gameC7.store 1).rotation := by
  refine ⟨?_, ?_, ?_, ?_⟩
  · simp [Game.onMove, gameC7, afterC7]
  · norm_num [afterC7, gameC7, updStore, Player.changeDirection, pC7, basePlayer]
  · norm_num [gameC7, pC7, basePlayer]
  · norm_num [afterC7, gameC7, updStore, Player.changeDirection, Player.tick, pC7,
      basePlayer]

/-- C7 (amended): `on_move` fails exactly when the id is not in
`active_players`, and on failure nothing changes (the error carries no new
state); on success only that player's turn intent is set; the intent is
applied to the heading on the next tick that passes the cadence gate
(`stop_count ≤ 1` on entry), not necessarily on the immediately next tick. -/
theorem C7_on_move_behavior :
    (∀ (g : Game) (id : Uuid) (d : Direction),
        (g.onMove id d).isOk = true ↔ id ∈ g.activeIds)
    ∧ (∀ (g : Game) (id : Uuid) (d : Direction) (g2 : Game),
        g.onMove id d = Except.ok g2 →
          g2.store id = (g.store id).changeDirection d
          ∧ (∀ j : Uuid, j ≠ id → g2.store j = g.store j)
          ∧ g2.activeIds = g.activeIds ∧ g2.playerIds = g.playerIds ∧ g2.grid = g.grid)
    ∧ (∀ p : Player, p.stopCount ≤ 1 →
        ((p.changeDirection Direction.Left).tick).rotation = p.rotation + p.rotationDelta
        ∧ ((p.changeDirection Direction.Right).tick).rotation
            = p.rotation - p.rotationDelta) := by
  refine ⟨?_, ?_, ?_⟩
  · intro g id d
    by_cases h : id ∈ g.activeIds <;> simp [Game.onMove, h, Except.isOk, Except.toBool]
  · intro g id d g2 hok
    by_cases h : id ∈ g.activeIds
    · rw [Game.onMove, if_pos h] at hok
      injection hok with h2
      subst h2
      refine ⟨by simp [updStore], fun j hj => by simp [updStore, hj], rfl, rfl, rfl⟩
    · rw [Game.onMove, if_neg h] at hok
      exact absurd hok (by simp)
  · intro p hp
    have hc : ¬(p.stopCount - 1 > 0) := by simp; linarith
    constructor
    · unfold Player.tick
      dsimp only [Player.changeDirection]
      rw [if_neg hc]
    · unfold Player.tick
      dsimp only [Player.changeDirection]
      rw [if_neg hc]

/-- C7 witness: the success case on a concrete game and the cadence-gated
heading application on the server-default player. -/
theorem C7_on_move_witness :
    ((1 : Uuid) ∈ gameC7.activeIds ∧ (gameC7.onMove 1 Direction.Right).isOk = true)
    ∧ (basePlayer.stopCount ≤ 1
       ∧ ((basePlayer.changeDirection Direction.Left).tick).rotation
           = basePlayer.rotation + basePlayer.rotationDelta) :=
  ⟨⟨by simp [gameC7],
    (C7_on_move_behavior.1 gameC7 1 Direction.Right).mpr (by simp [gameC7])⟩,
   ⟨by norm_num [basePlayer],
    (C7_on_move_behavior.2.2 basePlayer (by norm_num [basePlayer])).1⟩⟩

noncomputable def pHostC4 : Player := { basePlayer with uuid := 1, host := true }

noncomputable def pGuestC4 : Player := { basePlayer with uuid := 2 }

noncomputable def roomC4 : RoomM :=
  { connections := [(10, 2)], roomPlayerIds := [1, 2],
    store := fun u => if u = 1 then pHostC4 else pGuestC4 }

/-- C4 counterexample: the non-host player 2 disconnects while the host
(player 1, host flag still set afterwards) stays connected; the broadcast is
`PlayerDisconnected(2, 2)` — its second field is the departing player's own
id, not the id 1 of the current host, refuting the claim's non-host case. -/
theorem C4_counterexample :
    (roomC4.onClientDisconnected 10).2 = some (2, 2)
    ∧ (((roomC4.onClientDisconnected 10).1).store 1).host = true
    ∧ (2 : Uuid) ≠ 1 := by
  refine ⟨?_, ?_, by norm_num⟩ <;>
    norm_num [RoomM.onClientDisconnected, roomC4, pHostC4, pGuestC4, basePlayer,
      List.lookup]

/-- C4 (amended): for a connection resolving to player `id`, the second
field of the `PlayerDisconnected` broadcast is: the promoted player's id
(whose host flag is then set) when a host departs and players remain; the
departing id itself when a host departs and nobody remains; and the
departing player's own id — not the current host's — for every non-host
departure. -/
theorem C4_disconnect_broadcast (r : RoomM) (addr : ℕ) (id : Uuid)
    (hconn : r.connections.lookup addr = some id) :
    (¬(r.store id).host = true → (r.onClientDisconnected addr).2 = some (id, id))
    ∧ (∀ pid : Uuid, (r.store id).host = true →
        (r.roomPlayerIds.erase id).head? = some pid →
        (r.onClientDisconnected addr).2 = some (id, pid)
        ∧ (((r.onClientDisconnected addr).1).store pid).host = true)
    ∧ ((r.store id).host = true → (r.roomPlayerIds.erase id).head? = none →
        (r.onClientDisconnected addr).2 = some (id, id)) := by
  unfold RoomM.onClientDisconnected
  rw [hconn]
  refine ⟨?_, ?_, ?_⟩
  · intro h
    rw [Bool.not_eq_true] at h
    simp [h]
  · intro pid hh hhead
    simp [hh, hhead, updStore]
  · intro hh hhead
    simp [hh, hhead]

/-- C4 witness: the non-host case of the disconnect broadcast applied to the
concrete room. -/
theorem C4_disconnect_witness :
    (roomC4.connections.lookup 10 = some 2 ∧ ¬(roomC4.store 2).host = true)
    ∧ (roomC4.onClientDisconnected 10).2 = some (2, 2) :=
  ⟨⟨by norm_num [roomC4, List.lookup],
    by norm_num [roomC4, pGuestC4, basePlayer]⟩,
   (C4_disconnect_broadcast roomC4 10 2 (by norm_num [roomC4, List.lookup])).1
     (by norm_num [roomC4, pGuestC4, basePlayer])⟩

noncomputable def pC2a : Player :=
  { basePlayer with uuid := 1, x := 500, y := 400, invisibleCount := 50 }

noncomputable def pC2b : Player :=
  { basePlayer with uuid := 2, x := 600, y := 799, invisibleCount := 50 }

noncomputable def gameC2 : Game :=
  { width := 1000, height := 800, lineWidth := 2, rotationDelta := 2,
    singlePlayer := false, grid := fun _ _ => 0,
    playerIds := [1, 2], activeIds := [1, 2],
    store := fun u => if u = 1 then pC2a else if u = 2 then pC2b else basePlayer }

/-- C2 counterexample: in the two-player game, player 2 is clamped at the
top wall and eliminated by the tick.  One active player remains afterwards,
so the claim's formula predicts `2^(2-1) = 2` points, but the code awards
`2^(2-2) = 1` because `calculate_points` runs before the eviction, while the
eliminated player is still counted in `active_players`. -/
theorem C2_counterexample :
    ((gameC2.tick).store 2).points = 1
    ∧ (gameC2.tick).activeIds.length = 1
    ∧ gameC2.playerIds.length = 2
    ∧ (1 : ℕ) ≠ 2 ^ (2 - 1) := by
  refine ⟨?_, ?_, by norm_num [gameC2], by norm_num⟩ <;>
    norm_num [Game.tick, winnerBonus, tickPlayer, Player.tick, pixelRange, stampCells,
      cellWindow, applyRemovals, removeOne, calculatePoints, updStore, updGrid,
      gameC2, pC2a, pC2b, basePlayer]

/-- C2 (amended): on elimination in a multiplayer round the awarded points
are `2^(total_players - active_at_award)` where the active count is taken
before the eviction, i.e. it still includes the eliminated player:
`2^(total_players - (active_remaining_after_removal + 1))`. -/
theorem C2_points_on_elimination (g : Game) (u : Uuid)
    (hm : u ∈ g.activeIds) (hsp : g.singlePlayer = false) :
    ((removeOne g u).store u).points
      = (g.store u).points
        + 2 ^ (g.playerIds.length - ((removeOne g u).activeIds.length + 1)) := by
  rw [removeOne_points_self g u hsp, removeOne_activeIds,
    List.length_erase_add_one hm]

/-- C2 witness: the award formula applied to the eliminated player of the
concrete two-player game. -/
theorem C2_points_witness :
    ((2 : Uuid) ∈ gameC2.activeIds ∧ gameC2.singlePlayer = false)
    ∧ ((removeOne gameC2 2).store 2).points
        = (gameC2.store 2).points
          + 2 ^ (gameC2.playerIds.length - ((removeOne gameC2 2).activeIds.length + 1)) :=
  ⟨⟨by norm_num [gameC2], rfl⟩,
   C2_points_on_elimination gameC2 2 (by norm_num [gameC2]) rfl⟩

/-- C9: elimination awards strictly increase over the whole round.  First
conjunct: within one removal pass of `Game::tick` (eliminations processed in
sequence), a later-eliminated player — one with strictly fewer active
players remaining at its award — receives strictly more points than any
earlier-eliminated one.  Second conjunct: across ticks of the round, a
player eliminated by a strictly later `Game::tick` (after `k + 1` further
ticks) gains strictly more points at its elimination than any player
eliminated by the first tick, because the active count at every award
strictly decreases along the round while the roster size stays fixed. -/
theorem C9_awards_increase :
    (∀ (g : Game) (rem : List Uuid) (i j : ℕ) (hij : i < j) (hj : j < rem.length),
       rem.Nodup → (∀ x ∈ rem, x ∈ g.activeIds) →
       g.activeIds.length ≤ g.playerIds.length → g.singlePlayer = false →
       ((applyRemovals g rem).store (rem.get ⟨i, lt_trans hij hj⟩)).points
           - (g.store (rem.get ⟨i, lt_trans hij hj⟩)).points
         < ((applyRemovals g rem).store (rem.get ⟨j, hj⟩)).points
           - (g.store (rem.get ⟨j, hj⟩)).points)
    ∧ (∀ (g : Game) (k : ℕ) (u v : Uuid),
       g.singlePlayer = false → g.activeIds.Nodup →
       g.activeIds.length ≤ g.playerIds.length →
       u ∈ g.activeIds → u ∉ (g.tick).activeIds →
       v ∈ (Game.tick^[k + 1] g).activeIds →
       v ∉ ((Game.tick^[k + 1] g).tick).activeIds →
       ((g.tick).store u).points - (g.store u).points
         < (((Game.tick^[k + 1] g).tick).store v).points
           - ((Game.tick^[k + 1] g).store v).points) := by
  constructor
  · intro g rem i j hij hj hnd hsub hle hsp
    have hlen : rem.length ≤ g.activeIds.length := (hnd.subperm hsub).length_le
    rw [applyRemovals_award rem g i (lt_trans hij hj) hnd hsub hsp,
      applyRemovals_award rem g j hj hnd hsub hsp,
      Nat.add_sub_cancel_left, Nat.add_sub_cancel_left]
    exact Nat.pow_lt_pow_right one_lt_two (by omega)
  · intro g k u v hsp hnd hle hu hu2 hv hv2
    obtain ⟨A, hAeq, hAlo, hAhi⟩ := Game.tick_award g hsp hnd u hu hu2
    have hsp2 : (Game.tick^[k + 1] g).singlePlayer = false := by
      rw [(Game.tick_iter_facts g (k + 1)).2.1, hsp]
    have hnd2 : (Game.tick^[k + 1] g).activeIds.Nodup :=
      ((Game.tick_iter_facts g (k + 1)).2.2 hnd).1
    obtain ⟨B, hBeq, hBlo, hBhi⟩ :=
      Game.tick_award (Game.tick^[k + 1] g) hsp2 hnd2 v hv hv2
    have hTeq : (Game.tick^[k + 1] g).playerIds.length = g.playerIds.length := by
      rw [(Game.tick_iter_facts g (k + 1)).1]
    have hchain : (Game.tick^[k + 1] g).activeIds.length
        ≤ (g.tick).activeIds.length := by
      have hstep :=
        ((Game.tick_iter_facts (g.tick) k).2.2 (Game.tick_active_nodup g hnd)).2
      rw [← Function.iterate_succ_apply] at hstep
      exact hstep
    rw [hAeq, hBeq, hTeq, Nat.add_sub_cancel_left, Nat.add_sub_cancel_left]
    exact Nat.pow_lt_pow_right one_lt_two (by omega)

/-- The per-player body marks a visible player whose occupancy window fails
on either axis (`pixel_range` returns `None`): the id is pushed onto the
removal list, the grid is untouched and the previous window not updated. -/
theorem tickPlayer_wall (width height : ℕ) (grid : Grid) (store : Uuid → Player)
    (rem : List Uuid) (u : Uuid)
    (hvis : ((store u).tick).invisible = false)
    (hwall :
      pixelRange ((((store u).tick).lineWidth : ℝ) / 2) ((store u).tick).x width = none
      ∨ pixelRange ((((store u).tick).lineWidth : ℝ) / 2) ((store u).tick).y height
          = none) :
    tickPlayer width height (grid, store, rem) u
      = (grid, updStore store u ((store u).tick), u :: rem) := by
  unfold tickPlayer
  dsimp only
  rw [hvis]
  simp only [Bool.false_eq_true, if_false]
  rcases hwall with h | h
  · rw [h]
  · rcases hx : pixelRange ((((store u).tick).lineWidth : ℝ) / 2) ((store u).tick).x width
      with _ | ⟨xs, xe⟩
    · rfl
    · rw [h]

noncomputable def pC1 : Player :=
  { basePlayer with uuid := 1, x := 0, y := 400, rotation := 180, invisibleCount := 50 }

noncomputable def gameC1 : Game :=
  { width := 1000, height := 800, lineWidth := 2, rotationDelta := 2,
    singlePlayer := true, grid := fun _ _ => 0,
    playerIds := [1], activeIds := [1], store := fun _ => pC1 }

/-- C1 counterexample: a visible player already clamped to the x = 0 wall
(heading 180°, so the x displacement is 0 and x stays clamped at 0) survives
`Game::tick`: with line_width 2 the window at 0 is `Some((0,0))` — the
`is_sign_negative` test does not fire at exactly 0 — and the exclusive
`0..0` cell loop is empty, so the player is neither removed nor does it
write cells: it stays alive at the boundary, refuting the claim. -/
theorem C1_counterexample :
    1 ∈ (gameC1.tick).activeIds ∧ ((gameC1.tick).store 1).x = 0
    ∧ ((gameC1.tick).store 1).invisible = false := by
  norm_num [Game.tick, winnerBonus, tickPlayer, Player.tick, pixelRange, stampCells,
    cellWindow, applyRemovals, removeOne, calculatePoints, updStore, updGrid,
    gameC1, pC1, basePlayer, sin_deg_180, cos_deg_180]

/-- C1 (amended): a clamped position is eliminated on the next visible tick
exactly when it actually fails the window test: whenever either axis's
`pixel_range` of the post-tick position is `None` (which holds at the upper
wall `dimension`, and at the lower wall only for `line_width ≥ 4`), that
player — any member of a duplicate-free `active_players`, in any game —
is removed from `active_players` by that `Game::tick`; at the lower wall
with the server's `line_width = 2` the window is `Some((0,0))` and the
player survives, frozen at the boundary (see the counterexample). -/
theorem C1_wall_removal (g : Game) (u : Uuid)
    (hmem : u ∈ g.activeIds) (hnd : g.activeIds.Nodup)
    (hvis : ((g.store u).tick).invisible = false)
    (hwall :
      pixelRange ((((g.store u).tick).lineWidth : ℝ) / 2) ((g.store u).tick).x g.width
          = none
      ∨ pixelRange ((((g.store u).tick).lineWidth : ℝ) / 2) ((g.store u).tick).y g.height
          = none) :
    u ∉ (g.tick).activeIds := by
  obtain ⟨l1, l2, hsplit⟩ := List.append_of_mem hmem
  have hnd2 := hnd
  rw [hsplit] at hnd2
  obtain ⟨hndl1, hndc, hdisj⟩ := List.nodup_append.mp hnd2
  have hul1 : u ∉ l1 := fun hm => (hdisj hm) (List.mem_cons_self _ _)
  have hul2 : u ∉ l2 := (List.nodup_cons.mp hndc).1
  rw [Game.tick_eq, winnerBonus_activeIds]
  refine applyRemovals_not_mem_of_mem
    (g.activeIds.foldl (tickPlayer g.width g.height) (g.grid, g.store, [])).2.2.reverse
    { g with
      grid := (g.activeIds.foldl (tickPlayer g.width g.height) (g.grid, g.store, [])).1,
      store :=
        (g.activeIds.foldl (tickPlayer g.width g.height) (g.grid, g.store, [])).2.1 }
    hnd u ?_
  rw [List.mem_reverse]
  rw [hsplit, List.foldl_append, List.foldl_cons]
  have hstoreA :
      (l1.foldl (tickPlayer g.width g.height) (g.grid, g.store, [])).2.1 u
        = g.store u :=
    (foldl_tickPlayer_frame g.width g.height l1 (g.grid, g.store, []) u hul1).1
  have hwall2 :
      tickPlayer g.width g.height
          (l1.foldl (tickPlayer g.width g.height) (g.grid, g.store, [])) u
        = ((l1.foldl (tickPlayer g.width g.height) (g.grid, g.store, [])).1,
           updStore (l1.foldl (tickPlayer g.width g.height) (g.grid, g.store, [])).2.1 u
             (((l1.foldl (tickPlayer g.width g.height) (g.grid, g.store, [])).2.1 u).tick),
           u :: (l1.foldl (tickPlayer g.width g.height) (g.grid, g.store, [])).2.2) :=
    tickPlayer_wall g.width g.height _ _ _ u
      (by rw [hstoreA]; exact hvis) (by rw [hstoreA]; exact hwall)
  rw [hwall2]
  refine (foldl_tickPlayer_frame g.width g.height l2 _ u hul2).2 ?_
  exact List.mem_cons_self _ _

noncomputable def pC1wa : Player :=
  { basePlayer with uuid := 1, x := 500, y := 400, invisibleCount := 50 }

noncomputable def pC1wb : Player :=
  { basePlayer with uuid := 2, x := 600, y := 799, invisibleCount := 50 }

noncomputable def gameC1w : Game :=
  { width := 1000, height := 800, lineWidth := 2, rotationDelta := 2,
    singlePlayer := false, grid := fun _ _ => 0,
    playerIds := [1, 2], activeIds := [1, 2],
    store := fun u => if u = 1 then pC1wa else if u = 2 then pC1wb else basePlayer }

/-- C1 witness: in a two-player game, the player clamped to the upper wall
(y = y_max = 800 after its tick) fails the y-axis window test and is
evicted while the other player keeps playing. -/
theorem C1_wall_removal_witness :
    ((2 : Uuid) ∈ gameC1w.activeIds ∧ gameC1w.activeIds.Nodup
     ∧ ((gameC1w.store 2).tick).invisible = false
     ∧ pixelRange ((((gameC1w.store 2).tick).lineWidth : ℝ) / 2)
         ((gameC1w.store 2).tick).y gameC1w.height = none)
    ∧ 2 ∉ (gameC1w.tick).activeIds :=
  ⟨⟨by norm_num [gameC1w], by simp [gameC1w],
    by norm_num [Player.tick, gameC1w, pC1wa, pC1wb, basePlayer],
    by norm_num [Player.tick, pixelRange, gameC1w, pC1wa, pC1wb, basePlayer]⟩,
   C1_wall_removal gameC1w 2 (by norm_num [gameC1w]) (by simp [gameC1w])
     (by norm_num [Player.tick, gameC1w, pC1wa, pC1wb, basePlayer])
     (Or.inr
       (by norm_num [Player.tick, pixelRange, gameC1w, pC1wa, pC1wb, basePlayer]))⟩

noncomputable def gameC9 : Game :=
  { width := 1000, height := 800, lineWidth := 2, rotationDelta := 2,
    singlePlayer := false, grid := fun _ _ => 0,
    playerIds := [1, 2, 3], activeIds := [1, 2, 3], store := fun _ => basePlayer }

noncomputable def pC9b1 : Player :=
  { basePlayer with uuid := 1, x := 500, y := 400, invisibleCount := 50 }

noncomputable def pC9b2 : Player :=
  { basePlayer with uuid := 2, x := 600, y := 799, invisibleCount := 50 }

noncomputable def pC9b3 : Player :=
  { basePlayer with uuid := 3, x := 700, y := 797, invisibleCount := 50 }

noncomputable def gameC9b : Game :=
  { width := 1000, height := 800, lineWidth := 2, rotationDelta := 2,
    singlePlayer := false, grid := fun _ _ => 0,
    playerIds := [1, 2, 3], activeIds := [1, 2, 3],
    store := fun u =>
      if u = 1 then pC9b1 else if u = 2 then pC9b2 else if u = 3 then pC9b3
      else basePlayer }

/-- C9 witness, both conjuncts.  Same pass: in the three-player game
`gameC9`, a removal pass eliminating players 2 then 3 awards strictly
increasing points (1, then 2).  Different ticks: in `gameC9b`, player 2 dies
at the top wall on the first tick (award 1) and player 3 one tick later
(award 2). -/
theorem C9_awards_witness :
    (((0 : ℕ) < 1 ∧ (1 : ℕ) < 2 ∧ ([2, 3] : List Uuid).Nodup
      ∧ (∀ x ∈ ([2, 3] : List Uuid), x ∈ gameC9.activeIds)
      ∧ gameC9.activeIds.length ≤ gameC9.playerIds.length
      ∧ gameC9.singlePlayer = false)
    ∧ ((applyRemovals gameC9 [2, 3]).store
          (([2, 3] : List Uuid).get ⟨0, by norm_num⟩)).points
        - (gameC9.store (([2, 3] : List Uuid).get ⟨0, by norm_num⟩)).points
      < ((applyRemovals gameC9 [2, 3]).store
          (([2, 3] : List Uuid).get ⟨1, by norm_num⟩)).points
        - (gameC9.store (([2, 3] : List Uuid).get ⟨1, by norm_num⟩)).points)
    ∧ ((gameC9b.singlePlayer = false ∧ gameC9b.activeIds.Nodup
      ∧ gameC9b.activeIds.length ≤ gameC9b.playerIds.length
      ∧ (2 : Uuid) ∈ gameC9b.activeIds ∧ 2 ∉ (gameC9b.tick).activeIds
      ∧ (3 : Uuid) ∈ (Game.tick^[0 + 1] gameC9b).activeIds
      ∧ 3 ∉ ((Game.tick^[0 + 1] gameC9b).tick).activeIds)
    ∧ ((gameC9b.tick).store 2).points - (gameC9b.store 2).points
        < (((Game.tick^[0 + 1] gameC9b).tick).store 3).points
          - ((Game.tick^[0 + 1] gameC9b).store 3).points) :=
  ⟨⟨⟨by norm_num, by norm_num, by simp [gameC9],
    by intro x hx; fin_cases hx <;> simp [gameC9],
    by simp [gameC9], rfl⟩,
   C9_awards_increase.1 gameC9 [2, 3] 0 1 (by norm_num) (by norm_num)
     (by simp [gameC9]) (by intro x hx; fin_cases hx <;> simp [gameC9])
     (by simp [gameC9]) rfl⟩,
   ⟨⟨rfl, by simp [gameC9b], by simp [gameC9b], by norm_num [gameC9b],
    by
      norm_num [Game.tick, winnerBonus, tickPlayer, Player.tick, pixelRange,
        stampCells, cellWindow, applyRemovals, removeOne, calculatePoints, updStore,
        updGrid, gameC9b, pC9b1, pC9b2, pC9b3, basePlayer],
    by
      norm_num [Function.iterate_one, Game.tick, winnerBonus, tickPlayer, Player.tick,
        pixelRange, stampCells, cellWindow, applyRemovals, removeOne, calculatePoints,
        updStore, updGrid, gameC9b, pC9b1, pC9b2, pC9b3, basePlayer],
    by
      norm_num [Function.iterate_one, Game.tick, winnerBonus, tickPlayer, Player.tick,
        pixelRange, stampCells, cellWindow, applyRemovals, removeOne, calculatePoints,
        updStore, updGrid, gameC9b, pC9b1, pC9b2, pC9b3, basePlayer]⟩,
   C9_awards_increase.2 gameC9b 0 2 3 rfl (by simp [gameC9b]) (by simp [gameC9b])
     (by norm_num [gameC9b])
     (by
       norm_num [Game.tick, winnerBonus, tickPlayer, Player.tick, pixelRange,
         stampCells, cellWindow, applyRemovals, removeOne, calculatePoints, updStore,
         updGrid, gameC9b, pC9b1, pC9b2, pC9b3, basePlayer])
     (by
       norm_num [Function.iterate_one, Game.tick, winnerBonus, tickPlayer, Player.tick,
         pixelRange, stampCells, cellWindow, applyRemovals, removeOne, calculatePoints,
         updStore, updGrid, gameC9b, pC9b1, pC9b2, pC9b3, basePlayer])
     (by
       norm_num [Function.iterate_one, Game.tick, winnerBonus, tickPlayer, Player.tick,
         pixelRange, stampCells, cellWindow, applyRemovals, removeOne, calculatePoints,
         updStore, updGrid, gameC9b, pC9b1, pC9b2, pC9b3, basePlayer])⟩⟩

noncomputable def pC10a : Player :=
  { basePlayer with uuid := 1, x := 500, y := 799, invisibleCount := 50 }

noncomputable def pC10b : Player :=
  { basePlayer with uuid := 2, x := 600, y := 799, invisibleCount := 50 }

noncomputable def gameC10 : Game :=
  { width := 1000, height := 800, lineWidth := 2, rotationDelta := 2,
    singlePlayer := false, grid := fun _ _ => 0,
    playerIds := [1, 2], activeIds := [1, 2],
    store := fun u => if u = 1 then pC10a else if u = 2 then pC10b else basePlayer }

/-- C10: from a running multiplayer state with two active players, one
`Game::tick` can remove both (both are clamped at the top wall and fail the
window test); afterwards `running()` is false, `active_players` is empty,
and `get_winner` hits the `.unwrap()` of an empty iterator — the model's
`none` — i.e. it panics instead of returning a winner. -/
theorem C10_get_winner_panics :
    gameC10.activeIds.length = 2 ∧ gameC10.singlePlayer = false
    ∧ (gameC10.tick).activeIds = []
    ∧ (gameC10.tick).running = false
    ∧ (gameC10.tick).getWinner? = none := by
  refine ⟨by norm_num [gameC10], rfl, ?_, ?_, ?_⟩ <;>
    norm_num [Game.tick, winnerBonus, Game.running, Game.getWinner?, tickPlayer,
      Player.tick, pixelRange, stampCells, cellWindow, applyRemovals, removeOne,
      calculatePoints, updStore, updGrid, gameC10, pC10a, pC10b, basePlayer]

noncomputable def pC3a : Player :=
  { basePlayer with
    uuid := 1, x := 5, y := 1, xMax := 20, yMax := 20, lineWidth := 4,
    invisibleCount := 50, xPrevRange := (4, 6), yPrevRange := (4, 6) }

noncomputable def pC3b : Player :=
  { basePlayer with
    uuid := 2, x := 6, y := 1, xMax := 20, yMax := 20, lineWidth := 4,
    invisibleCount := 50 }

noncomputable def gameC3 : Game :=
  { width := 20, height := 20, lineWidth := 4, rotationDelta := 2,
    singlePlayer := false, grid := fun _ _ => 0,
    playerIds := [1, 2], activeIds := [1, 2],
    store := fun u => if u = 1 then pC3a else if u = 2 then pC3b else basePlayer }

/-- C3 counterexample: players 1 and 2 (line width 4) move onto overlapping
windows in the same tick.  Player 1 stamps cell (x,y) = (5,4); player 2's
fresh window then reaches that claimed cell and player 2 is marked — but
after the tick, cell (5,4) still carries id 1 (the early `return None` fires
before the `grid[y][x] = uuid` write) and player 1 is still active: the cell
is not stamped with the acting player's id and only one of the two crossing
players dies, refuting both parts of the claim. -/
theorem C3_counterexample :
    1 ∈ (gameC3.tick).activeIds ∧ 2 ∉ (gameC3.tick).activeIds
    ∧ (gameC3.tick).grid 4 5 = 1 := by
  norm_num [Game.tick, winnerBonus, tickPlayer, Player.tick, pixelRange, stampCells,
    cellWindow, applyRemovals, removeOne, calculatePoints, updStore, updGrid,
    gameC3, pC3a, pC3b, basePlayer, List.range']

/-- C3 (amended): when the scan of a visible player's new window reaches a
cell outside its previous window that is already claimed, the scan aborts
immediately — the colliding cell keeps its prior owner and is NOT stamped
with the acting player's id — and the acting player is pushed onto the
removal list with its previous window left unchanged.  (Hence two players
whose windows cross the same fresh cell in one tick do not both die: only
the one processed after the stamper is marked; see the counterexample.) -/
theorem C3_collision_no_stamp :
    (∀ (uuid : Uuid) (xPrev yPrev : ℕ × ℕ) (x y : ℕ) (rest : List (ℕ × ℕ))
        (grid : Grid),
        ((x < xPrev.1 ∨ x > xPrev.2) ∨ (y < yPrev.1 ∨ y > yPrev.2)) → grid y x ≠ 0 →
        stampCells uuid xPrev yPrev ((x, y) :: rest) grid = (grid, true))
    ∧ (∀ (width height : ℕ) (grid : Grid) (store : Uuid → Player) (rem : List Uuid)
        (u : Uuid) (xs xe ys ye : ℕ) (grid2 : Grid),
        ((store u).tick).invisible = false →
        pixelRange ((((store u).tick).lineWidth : ℝ) / 2) ((store u).tick).x width
            = some (xs, xe) →
        pixelRange ((((store u).tick).lineWidth : ℝ) / 2) ((store u).tick).y height
            = some (ys, ye) →
        stampCells u ((store u).tick).xPrevRange ((store u).tick).yPrevRange
            (cellWindow xs xe ys ye) grid = (grid2, true) →
        tickPlayer width height (grid, store, rem) u
          = (grid2, updStore store u ((store u).tick), u :: rem)) := by
  constructor
  · intro uuid xPrev yPrev x y rest grid hout hocc
    simp only [stampCells]
    rw [if_pos ⟨hout, hocc⟩]
  · intro width height grid store rem u xs xe ys ye grid2 hvis hx hy hstamp
    unfold tickPlayer
    dsimp only
    rw [hvis]
    simp only [Bool.false_eq_true, if_false]
    rw [hx, hy]
    dsimp only
    rw [hstamp]

noncomputable def gridC3w : Grid := updGrid (fun _ _ => 0) 4 5 1

/-- C3 witness: the abort case of the cell scan on a concrete grid holding a
foreign claim at (x,y) = (5,4). -/
theorem C3_collision_witness :
    (((5 : ℕ) < 0 ∨ (5 : ℕ) > 0) ∨ ((4 : ℕ) < 0 ∨ (4 : ℕ) > 0))
    ∧ gridC3w 4 5 ≠ 0
    ∧ stampCells 2 (0, 0) (0, 0) [(5, 4), (5, 5)] gridC3w = (gridC3w, true) :=
  ⟨by norm_num, by norm_num [gridC3w, updGrid],
   C3_collision_no_stamp.1 2 (0, 0) (0, 0) 5 4 [(5, 5)] gridC3w (by norm_num)
     (by norm_num [gridC3w, updGrid])⟩
